import Mathlib

/-!
Verification of the blue-green deployment orchestrator
(`internal/command/deploy/strategy_bluegreen.go`).

The Go source is shallowly embedded below.  Conventions:

* Go pointers that may be nil (`*int`, `*string`, ...) become `Option _`.
* Go maps become association lists; `map[k]v` reads return the zero value
  for a missing key (the empty string for `map[string]string`), and writes
  replace an existing binding in place or append a fresh one.
* Go errors are the inductive `GoError`; `pkg/errors.Wrap(err, msg)` is
  `GoError.wrap msg err` (its message is `msg ++ ": " ++ inner message`),
  and a `hashicorp/go-multierror` aggregate is `GoError.multi`.
* A Go runtime panic (nil-pointer dereference, index out of range) is the
  distinct outcome `RunErr.panicked`, never a `GoError`.
* External effects (the flaps / Fleet API, the platform policy check) are
  drawn from a `FleetEnv` of response functions, so every phase is a pure
  function of its inputs and the environment.
* We model the non-aborted, non-timed-out executions: `isAborted()` is
  false throughout and no wait ticker fires.  The concurrent waiters of
  the wait phases are determinized: each waiter's outcome comes from the
  environment and the foreground observes outcomes in machine-list order.
-/

/-- Errors as Go sees them: base messages (`errors.New`, `fmt.Errorf`),
`pkg/errors` wrapping, and `hashicorp/go-multierror` aggregates. -/
inductive GoError where
  | msg (s : String)
  | wrap (outer : String) (inner : GoError)
  | multi (errs : List GoError)
deriving Repr

mutual

/-- The `Error()` string of a `GoError`.  For `wrap` this is exactly what
`pkg/errors` produces (`outer ++ ": " ++ inner`); for `multi` we use a
deterministic rendering (the claims only inspect sub-string membership of
sentinel texts, which no aggregate rendering contains spuriously). -/
def errString : GoError → String
  | GoError.msg s => s
  | GoError.wrap outer inner => outer ++ ": " ++ errString inner
  | GoError.multi es => toString es.length ++ " errors occurred: " ++ joinErrStrings es

/-- Renders a list of errors separated by a semicolon. -/
def joinErrStrings : List GoError → String
  | [] => ""
  | [e] => errString e
  | e :: e2 :: rest => errString e ++ "; " ++ joinErrStrings (e2 :: rest)

end

/-- Outcome of running a piece of Go code: either a returned `error`
value or a runtime panic (which in Go aborts the whole process). -/
inductive RunErr where
  | go (e : GoError)
  | panicked (site : String)
deriving Repr

/-- Lifts `errors.Wrap(err, outerMsg)` over a run outcome; a panic is not
an error value and cannot be wrapped. -/
def wrapRunErr (outerMsg : String) : RunErr → RunErr
  | RunErr.go e => RunErr.go (GoError.wrap outerMsg e)
  | RunErr.panicked s => RunErr.panicked s

/-- Tests whether an error value is a `*multierror.Error`, as
`errors.As(err, &merr)` does on the result of the stop-wait phase. -/
def isMultiError : GoError → Bool
  | GoError.multi _ => true
  | _ => false

/-- Sub-list membership of character lists, used to model Go's
`strings.Contains`. -/
def listContainsSub (sub l : List Char) : Bool :=
  (List.range (l.length + 1)).any (fun i => ((l.drop i).take sub.length) == sub)

/-- Go's `strings.Contains s sub`. -/
def goContains (s sub : String) : Bool :=
  listContainsSub sub.data s.data

/-- Decimal digit run parser: `some n` when the run is non-empty and all
characters are ASCII digits (leading zeros allowed, as in Go). -/
def parseDigits (cs : List Char) : Option Nat :=
  if cs = [] then none
  else if cs.all (fun c => c.isDigit) then
    some (cs.foldl (fun a c => a * 10 + (c.toNat - 48)) 0)
  else none

/-- Go's `strconv.Atoi`: an optional sign followed by at least one digit.
(64-bit overflow is not modelled; the generation tags in play are small.) -/
def atoi (s : String) : Option Int :=
  match s.data with
  | [] => none
  | c :: rest =>
    if c = '+' then (parseDigits rest).map (fun n => (n : Int))
    else if c = '-' then (parseDigits rest).map (fun n => -(n : Int))
    else (parseDigits (c :: rest)).map (fun n => (n : Int))

/-- Go's `fmt.Sprint` on an `int`. -/
def goSprintInt (n : Int) : String := toString n

/-- Go's `sort.Ints`, ascending. -/
def sortInts (l : List Int) : List Int := l.insertionSort (fun a b => a ≤ b)

/-- Model of `fly.MachineCheck` restricted to the fields the strategy
copies in `attachCustomTopLevelChecks`; nilable pointers are `Option`. -/
structure MachineCheck where
  port : Option Nat
  type : Option String
  interval : Option Nat
  timeout : Option Nat
  gracePeriod : Option Nat
  httpMethod : Option String
  httpPath : Option String
  httpProtocol : Option String
  httpSkipTLSVerify : Option Bool
  httpHeaders : List (String × List String)
deriving Repr, DecidableEq

/-- Constructs a check whose remaining fields are unset; convenient for
concrete instances. -/
def mkCheck (port : Option Nat) (type : Option String) : MachineCheck :=
  ⟨port, type, none, none, none, none, none, none, none, []⟩

/-- Model of `fly.MachineService`: the fields read by the strategy. -/
structure MachineService where
  protocol : String
  internalPort : Nat
  checks : List MachineCheck
deriving Repr, DecidableEq

/-- Association-list read with Go map semantics for `map[string]string`:
a missing key yields the zero value `""`. -/
def metaGet (m : List (String × String)) (k : String) : String :=
  match m.find? (fun p => p.1 == k) with
  | some p => p.2
  | none => ""

/-- Association-list write with Go map semantics: replace the binding in
place when the key is present, else append a fresh binding. -/
def assocSet {α : Type} : List (String × α) → String → α → List (String × α)
  | [], k, v => [(k, v)]
  | p :: rest, k, v => if p.1 == k then (k, v) :: rest else p :: assocSet rest k v

/-- Association-list read returning `Option`, for the top-level checks
map `map[string]fly.MachineCheck`. -/
def assocGet {α : Type} (m : List (String × α)) (k : String) : Option α :=
  (m.find? (fun p => p.1 == k)).map (fun p => p.2)

/-- Model of `fly.MachineConfig` restricted to the fields the strategy
touches: metadata, services, and the top-level checks map. -/
structure MachineConfig where
  metadata : List (String × String)
  services : List MachineService
  checks : List (String × MachineCheck)
deriving Repr, DecidableEq

/-- Model of `fly.LaunchMachineInput` restricted to the fields read here. -/
structure LaunchMachineInput where
  id : String
  skipLaunch : Bool
  skipServiceRegistration : Bool
  config : MachineConfig
deriving Repr, DecidableEq

/-- Model of a `fly.Machine` as seen through a leasable machine: its id
(`FormattedMachineId`), state, and configured checks. -/
structure Machine where
  id : String
  state : String
  checks : List MachineCheck
deriving Repr, DecidableEq

/-- Model of `machineUpdateEntry`: the existing (blue) machine and the
desired launch spec. -/
structure MachineUpdateEntry where
  machine : Machine
  launchInput : LaunchMachineInput
deriving Repr, DecidableEq

/-- Model of the `blueGreen` strategy state that the claims reason
about: both generations, the hanging-blue ids, and the deployment
timestamp tag. -/
structure BlueGreen where
  greenMachines : List MachineUpdateEntry
  blueMachines : List MachineUpdateEntry
  hangingBlueMachines : List String
  timestamp : String
deriving Repr, DecidableEq

/-- The metadata key `fly.MachineConfigMetadataKeyFlyctlBGTag` carrying
the generation tag (value taken from the fly-go dependency). -/
def flyctlBGTagKey : String := "fly_bluegreen_deployment_tag"

/-- Reads an entry's generation tag from its launch-spec metadata. -/
def tagOf (e : MachineUpdateEntry) : String :=
  metaGet e.launchInput.config.metadata flyctlBGTagKey

/-- Sentinel message of `ErrCreateGreenMachine`. -/
def errCreateGreenMachineMsg : String := "failed to create green machines"

/-- Sentinel message of `ErrWaitForStartedState`. -/
def errWaitForStartedStateMsg : String := "could not get all green machines into started state"

/-- Sentinel message of `ErrWaitForHealthy`. -/
def errWaitForHealthyMsg : String := "could not get all green machines to be healthy"

/-- Sentinel message of `ErrMarkReadyForTraffic`. -/
def errMarkReadyForTrafficMsg : String := "failed to mark green machines as ready"

/-- Sentinel message of `ErrWaitForStoppedState`. -/
def errWaitForStoppedStateMsg : String := "could not get all blue machines into stopped state"

/-- Sentinel message of `ErrDestroyBlueMachines`. -/
def errDestroyBlueMachinesMsg : String := "failed to destroy previous deployment"

/-- The sentinel `ErrValidationError`. -/
def ErrValidationError : GoError :=
  GoError.msg "app not in valid state for bluegreen deployments"

/-- The sentinel `ErrOrgLimit`. -/
def ErrOrgLimit : GoError :=
  GoError.msg "app can\u0027t undergo bluegreen deployment due to org limits"

/-- Responses of the external world (platform policy plus the Fleet /
flaps API), addressed by machine id.  Each field determinizes one kind of
call the strategy makes; `none` means the call succeeded. -/
structure FleetEnv where
  canPerform : Bool
  zombieDestroy : String → Nat → Option GoError
  launch : LaunchMachineInput → Except GoError Machine
  startWait : String → Option GoError
  healthWait : String → Option GoError
  uncordon : String → Option GoError
  cordon : String → Option GoError
  stop : String → Option GoError
  stopWait : String → Option GoError
  destroy : String → Option GoError

/-- The machine check synthesized from a service check in
`attachCustomTopLevelChecks`: the listed fields are copied, then a nil
port defaults to the service internal port and a nil type to the service
protocol. -/
def defaultedCheck (servicePort : Nat) (serviceProtocol : String) (c : MachineCheck) : MachineCheck :=
  { c with port := some (c.port.getD servicePort), type := some (c.type.getD serviceProtocol) }

/-- One iteration of the inner loop of `attachCustomTopLevelChecks`.  The
map key is built from `*check.Type` — the original, possibly-nil pointer,
not the defaulted copy — so an unset check type is a nil dereference,
modelled as `none`. -/
def attachCheck (servicePort : Nat) (serviceProtocol : String)
    (m : List (String × MachineCheck)) (c : MachineCheck) : Option (List (String × MachineCheck)) :=
  match c.type with
  | none => none
  | some t => some (assocSet m ("bg_deployments_" ++ t) (defaultedCheck servicePort serviceProtocol c))

/-- Folds `attachCheck` over the checks of one service. -/
def attachServiceChecks (s : MachineService) (m : List (String × MachineCheck)) : Option (List (String × MachineCheck)) :=
  s.checks.foldlM (fun acc c => attachCheck s.internalPort s.protocol acc c) m

/-- The effect of `attachCustomTopLevelChecks` on one blue entry: every
service check is synthesized into the entry's top-level checks map. -/
def attachChecksToEntry (e : MachineUpdateEntry) : Option MachineUpdateEntry :=
  (e.launchInput.config.services.foldlM (fun acc s => attachServiceChecks s acc) e.launchInput.config.checks).map
    (fun m => { e with launchInput := { e.launchInput with config := { e.launchInput.config with checks := m } } })

/-- The `totalChecks` count of `Deploy`: the number of blue entries whose
launch spec has a non-empty top-level checks map (the others only get a
warning). -/
def totalChecks (blues : List MachineUpdateEntry) : Nat :=
  blues.countP (fun e => !(e.launchInput.config.checks.length == 0))

/-- Model of `fly.HealthCheckStatus` restricted to the two counters the
strategy reads. -/
structure HealthCheckStatus where
  passing : Nat
  total : Nat
deriving Repr, DecidableEq

/-- The predicate `allMachinesHealthy`: entries whose `Total` is zero are
skipped, entries with `Passing == Total` are counted, and the map passes
when the count equals the number of entries. -/
def allMachinesHealthy (stateMap : List (String × HealthCheckStatus)) : Bool :=
  (stateMap.countP (fun p => !(p.2.total == 0) && (p.2.passing == p.2.total))) == stateMap.length

/-- The predicate `allMachinesStarted` over the start-wait state table. -/
def allMachinesStarted (stateMap : List (String × String)) : Bool :=
  (stateMap.countP (fun p => p.2 == "started")) == stateMap.length

/-- The green entries that receive a health-table entry in
`WaitForGreenMachinesToBeHealthy`: not `skip_launch` and at least one
configured check. -/
def healthTableEntries (greens : List MachineUpdateEntry) : List MachineUpdateEntry :=
  greens.filter (fun g => !g.launchInput.skipLaunch && !(g.machine.checks.length == 0))

/-- The machine ids initialized in the health table. -/
def healthTableInitIds (greens : List MachineUpdateEntry) : List String :=
  (healthTableEntries greens).map (fun g => g.machine.id)

/-- The start-wait state table after the spawning loop of
`WaitForGreenMachinesToBeStarted`: every green id starts at `created`
and `skip_launch` entries are immediately pre-marked `started`. -/
def startWaitInitialStates (greens : List MachineUpdateEntry) : List (String × String) :=
  greens.map (fun g => (g.machine.id, if g.launchInput.skipLaunch then "started" else "created"))

/-- The green machines for which `WaitForGreenMachinesToBeStarted`
spawns a waiter (the non-`skip_launch` ones). -/
def startWaitWaiterIds (greens : List MachineUpdateEntry) : List String :=
  (greens.filter (fun g => !g.launchInput.skipLaunch)).map (fun g => g.machine.id)

/-- Determinized `WaitForGreenMachinesToBeStarted`: `none` when every
spawned waiter reaches `started`, else the first waiter error in list
order. -/
def waitForGreenMachinesToBeStarted (env : FleetEnv) (greens : List MachineUpdateEntry) : Option RunErr :=
  (greens.filter (fun g => !g.launchInput.skipLaunch)).findSome? (fun g => (env.startWait g.machine.id).map RunErr.go)

/-- Determinized `WaitForGreenMachinesToBeHealthy`: only machines with a
health-table entry are polled; `none` when every poller reaches
`passing == total > 0`. -/
def waitForGreenMachinesToBeHealthy (env : FleetEnv) (greens : List MachineUpdateEntry) : Option RunErr :=
  (healthTableEntries greens).findSome? (fun g => (env.healthWait g.machine.id).map RunErr.go)

/-- The core of `getZombies`: parse every tag with `strconv.Atoi`
(returning the error on any failure), sort ascending, and delete
`fmt.Sprint` of the element at index 0 — the smallest — from the set; on
an empty tag set the index expression `numbers[0]` is out of range. -/
def getZombies (ids : List String) : Except RunErr (List String) :=
  match ids.mapM atoi with
  | none => Except.error (RunErr.go (GoError.msg "strconv.Atoi: invalid syntax"))
  | some numbers =>
    match (sortInts numbers).head? with
    | none => Except.error (RunErr.panicked "index out of range in getZombies")
    | some m => Except.ok (ids.filter (fun t => !(t == goSprintInt m)))

/-- Tag normalization done by `DeleteZombiesFromPreviousDeployment`: an
empty generation tag is rewritten to `"-1"` in the entry's metadata. -/
def normalizeEntryTag (e : MachineUpdateEntry) : MachineUpdateEntry :=
  if tagOf e == "" then
    { e with launchInput := { e.launchInput with config := { e.launchInput.config with
        metadata := assocSet e.launchInput.config.metadata flyctlBGTagKey "-1" } } }
  else e

/-- The `retry.Do` wrapper around a zombie destroy: up to three attempts,
succeeding when any attempt succeeds. -/
def retryDestroy (env : FleetEnv) (id : String) : Bool :=
  (List.range 3).any (fun k => (env.zombieDestroy id k).isNone)

/-- The destroy loop of the zombie sweep over the zombie-tagged entries,
in blue-list order; the first machine whose three attempts all fail
aborts the sweep with an error.  Also returns the destroy calls made. -/
def zombieDestroyLoop (env : FleetEnv) : List MachineUpdateEntry → Except RunErr Unit × List String
  | [] => (Except.ok (), [])
  | b :: rest =>
    if retryDestroy env b.machine.id then
      match zombieDestroyLoop env rest with
      | (r, calls) => (r, b.machine.id :: calls)
    else (Except.error (RunErr.go (GoError.msg ("failed to destroy zombie " ++ b.machine.id))), [b.machine.id])

/-- Embeds `DeleteZombiesFromPreviousDeployment`: normalize tags, collect
the tag set, short-circuit when it has exactly one element, otherwise
destroy every entry carrying a zombie tag (with retries) and filter the
zombies out of the blue list.  Second component: the destroy calls. -/
def deleteZombiesFromPreviousDeployment (env : FleetEnv) (bg : BlueGreen) : Except RunErr BlueGreen × List String :=
  let blues := bg.blueMachines.map normalizeEntryTag
  let tags := (blues.map tagOf).dedup
  if tags.length == 1 then
    (Except.ok { bg with blueMachines := blues }, [])
  else
    match getZombies tags with
    | Except.error e => (Except.error e, [])
    | Except.ok zombies =>
      match zombieDestroyLoop env (blues.filter (fun b => zombies.contains (tagOf b))) with
      | (Except.error e, calls) => (Except.error e, calls)
      | (Except.ok _, calls) =>
        (Except.ok { bg with blueMachines := blues.filter (fun b => !(zombies.contains (tagOf b))) }, calls)

/-- The launch spec actually sent for a blue entry in
`CreateGreenMachines`: service registration suppressed and the
deployment timestamp stamped into the generation-tag metadata.  (The Go
code performs these writes through the shared `launchInput` pointer; the
mutation of the blue entry is not needed by any claim and is left
unmodelled.) -/
def greenLaunchInput (ts : String) (e : MachineUpdateEntry) : LaunchMachineInput :=
  { e.launchInput with
    skipServiceRegistration := true,
    config := { e.launchInput.config with
      metadata := assocSet e.launchInput.config.metadata flyctlBGTagKey ts } }

/-- The loop of `CreateGreenMachines`: every blue entry — there is no
`skip_launch` test here — is launched in order; the first launch error
aborts the phase.  Also returns the launch calls made. -/
def createGreensLoop (env : FleetEnv) (ts : String) : List MachineUpdateEntry → Except RunErr (List MachineUpdateEntry) × List LaunchMachineInput
  | [] => (Except.ok [], [])
  | e :: rest =>
    let li := greenLaunchInput ts e
    match env.launch li with
    | Except.error err => (Except.error (RunErr.go err), [li])
    | Except.ok m =>
      match createGreensLoop env ts rest with
      | (Except.error e2, calls) => (Except.error e2, li :: calls)
      | (Except.ok greens, calls) => (Except.ok (⟨m, li⟩ :: greens), li :: calls)

/-- The loop of `MarkGreenMachinesAsReadyForTraffic`: uncordon every
green machine in order, stopping at the first error.  Also returns the
uncordon calls made. -/
def uncordonLoop (env : FleetEnv) : List MachineUpdateEntry → Option RunErr × List String
  | [] => (none, [])
  | g :: rest =>
    match env.uncordon g.machine.id with
    | some e => (some (RunErr.go e), [g.machine.id])
    | none =>
      match uncordonLoop env rest with
      | (r, calls) => (r, g.machine.id :: calls)

/-- The cordon calls of `CordonBlueMachines`: every blue machine is
cordoned and per-machine errors are logged and swallowed, so the phase
touches every machine and returns nil. -/
def cordonBlueMachinesCalls (blues : List MachineUpdateEntry) : List String :=
  blues.map (fun b => b.machine.id)

/-- The stop calls of `StopBlueMachines`: every blue machine receives the
stop signal and per-machine errors are logged and swallowed. -/
def stopBlueMachinesCalls (blues : List MachineUpdateEntry) : List String :=
  blues.map (fun b => b.machine.id)

/-- The waiter error recorded for one blue machine that failed to reach
`stopped` (`fmt.Errorf` in the waiter goroutine). -/
def stopWaiterError (b : MachineUpdateEntry) (e : GoError) : GoError :=
  GoError.msg ("failed to stop machine " ++ b.machine.id ++ ": " ++ errString e)

/-- The errors accumulated by `WaitForBlueMachinesToBeStopped`: one per
blue machine whose waiter failed, over the whole blue list. -/
def stopFailures (env : FleetEnv) (blues : List MachineUpdateEntry) : List GoError :=
  blues.filterMap (fun b => (env.stopWait b.machine.id).map (fun e => stopWaiterError b e))

/-- Determinized `WaitForBlueMachinesToBeStopped`: the foreground loop
returns `merr.ErrorOrNil()` only once the completion counter reaches the
number of blue machines, so the aggregate collects the failures of every
waiter; it is `none` exactly when no waiter failed. -/
def waitForBlueMachinesToBeStopped (env : FleetEnv) (blues : List MachineUpdateEntry) : Option GoError :=
  match stopFailures env blues with
  | [] => none
  | errs => some (GoError.multi errs)

/-- The loop of `DestroyBlueMachines`: every blue machine is
force-destroyed in order; a failed destroy appends the entry's
launch-input id to the hanging list and the loop continues.  Returns the
destroy calls and the hanging-list additions. -/
def destroyBlueLoop (env : FleetEnv) : List MachineUpdateEntry → List String × List String
  | [] => ([], [])
  | b :: rest =>
    match destroyBlueLoop env rest with
    | (calls, hang) =>
      match env.destroy b.machine.id with
      | some _ => (b.machine.id :: calls, b.launchInput.id :: hang)
      | none => (b.machine.id :: calls, hang)

/-- Embeds `DestroyBlueMachines` on a non-aborted run: the hanging list
grows by the failed ids and the function returns nil — its only non-nil
return is the abort check. -/
def destroyBlueMachines (env : FleetEnv) (bg : BlueGreen) : BlueGreen × Option RunErr :=
  match destroyBlueLoop env bg.blueMachines with
  | (_, hang) => ({ bg with hangingBlueMachines := bg.hangingBlueMachines ++ hang }, none)

/-- External calls made during a deployment, per phase. -/
structure DeployTrace where
  zombieDestroyCalls : List String
  launchCalls : List LaunchMachineInput
  uncordonCalls : List String
  cordonCalls : List String
  stopCalls : List String
  blueDestroyCalls : List String
deriving Repr, DecidableEq

/-- The trace of a deployment that made no calls yet. -/
def emptyTrace : DeployTrace := ⟨[], [], [], [], [], []⟩

/-- The tail of `Deploy` from the destroy phase on: run
`DestroyBlueMachines` and wrap its (only abort-produced) error with the
`ErrDestroyBlueMachines` sentinel. -/
def deployDestroySection (env : FleetEnv) (bg : BlueGreen) (tr : DeployTrace) : Except RunErr Unit × BlueGreen × DeployTrace :=
  match destroyBlueMachines env bg with
  | (bg2, some e) =>
    (Except.error (wrapRunErr errDestroyBlueMachinesMsg e), bg2,
      { tr with blueDestroyCalls := (destroyBlueLoop env bg.blueMachines).1 })
  | (bg2, none) =>
    (Except.ok (), bg2,
      { tr with blueDestroyCalls := (destroyBlueLoop env bg.blueMachines).1 })

/-- Embeds `Deploy` on a non-aborted, non-timed-out run: policy check,
zombie sweep, check propagation, validation, green creation, start wait,
health wait, uncordon, cordon (best effort), stop (best effort), stop
wait (a `multierror` aggregate is logged and swallowed, any other error
is fatal), destroy.  Returns the outcome, the final strategy state and
the calls made. -/
def deploy (env : FleetEnv) (bg0 : BlueGreen) : Except RunErr Unit × BlueGreen × DeployTrace :=
  if env.canPerform then
    match deleteZombiesFromPreviousDeployment env bg0 with
    | (Except.error e, zc) => (Except.error e, bg0, { emptyTrace with zombieDestroyCalls := zc })
    | (Except.ok bg1, zc) =>
      match bg1.blueMachines.mapM attachChecksToEntry with
      | none =>
        (Except.error (RunErr.panicked "nil check type in attachCustomTopLevelChecks"), bg1,
          { emptyTrace with zombieDestroyCalls := zc })
      | some blues2 =>
        let bg2 : BlueGreen := { bg1 with blueMachines := blues2 }
        if totalChecks blues2 == 0 && !(blues2.length == 0) then
          (Except.error (RunErr.go ErrValidationError), bg2, { emptyTrace with zombieDestroyCalls := zc })
        else
          match createGreensLoop env bg2.timestamp bg2.blueMachines with
          | (Except.error e, lc) =>
            (Except.error (wrapRunErr errCreateGreenMachineMsg e), bg2,
              { emptyTrace with zombieDestroyCalls := zc, launchCalls := lc })
          | (Except.ok greens, lc) =>
            let bg3 : BlueGreen := { bg2 with greenMachines := greens }
            let tr0 : DeployTrace := { emptyTrace with zombieDestroyCalls := zc, launchCalls := lc }
            match waitForGreenMachinesToBeStarted env bg3.greenMachines with
            | some e => (Except.error (wrapRunErr errWaitForStartedStateMsg e), bg3, tr0)
            | none =>
              match waitForGreenMachinesToBeHealthy env bg3.greenMachines with
              | some e => (Except.error (wrapRunErr errWaitForHealthyMsg e), bg3, tr0)
              | none =>
                match uncordonLoop env bg3.greenMachines with
                | (some e, uc) =>
                  (Except.error (wrapRunErr errMarkReadyForTrafficMsg e), bg3, { tr0 with uncordonCalls := uc })
                | (none, uc) =>
                  let tr1 : DeployTrace :=
                    { tr0 with
                      uncordonCalls := uc
                      cordonCalls := cordonBlueMachinesCalls bg3.blueMachines
                      stopCalls := stopBlueMachinesCalls bg3.blueMachines }
                  match waitForBlueMachinesToBeStopped env bg3.blueMachines with
                  | some (GoError.multi _) => deployDestroySection env bg3 tr1
                  | some e => (Except.error (RunErr.go (GoError.wrap errWaitForStoppedStateMsg e)), bg3, tr1)
                  | none => deployDestroySection env bg3 tr1
  else
    (Except.error (RunErr.go ErrOrgLimit), bg0, emptyTrace)

/-- The green-destroy loop of `Rollback`: force-destroy each green in
order, returning the first error (which stops the loop).  Also returns
the destroy calls made. -/
def rollbackGreenLoop (env : FleetEnv) : List MachineUpdateEntry → Option GoError × List String
  | [] => (none, [])
  | g :: rest =>
    match env.destroy g.machine.id with
    | some e => (some e, [g.machine.id])
    | none =>
      match rollbackGreenLoop env rest with
      | (r, calls) => (r, g.machine.id :: calls)

/-- Embeds `Rollback`: when the error chain's message contains the
`ErrDestroyBlueMachines` sentinel text, print the hanging ids (returned
as the first component) and return nil without touching any green;
otherwise force-destroy every green machine, stopping at the first
failure.  Result: (reported hanging ids, green destroy calls, returned
error). -/
def rollback (env : FleetEnv) (bg : BlueGreen) (err : GoError) : List String × List String × Option GoError :=
  if goContains (errString err) errDestroyBlueMachinesMsg then
    (bg.hangingBlueMachines, [], none)
  else
    match rollbackGreenLoop env bg.greenMachines with
    | (r, calls) => ([], calls, r)

/-- Keys of an association list. -/
def keysOf {α : Type} (m : List (String × α)) : List String :=
  m.map (fun p => p.1)

/-- Folds `assocSet` over a list of bindings, left to right. -/
def insertAll (m : List (String × MachineCheck)) (ps : List (String × MachineCheck)) : List (String × MachineCheck) :=
  ps.foldl (fun acc p => assocSet acc p.1 p.2) m

/-- The (key, value) pairs that `attachCustomTopLevelChecks` inserts for
one service, in check order, assuming no check panics: the key is built
from the (for the key only: hypothetically defaulted) check type and the
value is the defaulted copy. -/
def servicePairs (s : MachineService) : List (String × MachineCheck) :=
  s.checks.map (fun c => ("bg_deployments_" ++ c.type.getD s.protocol, defaultedCheck s.internalPort s.protocol c))

/-- All pairs inserted for one entry, services in order. -/
def entryCheckPairs (e : MachineUpdateEntry) : List (String × MachineCheck) :=
  (e.launchInput.config.services.map servicePairs).flatten

/-- The (possibly defaulted) check types across an entry's services, in
iteration order. -/
def entryCheckTypes (e : MachineUpdateEntry) : List String :=
  (e.launchInput.config.services.map (fun s => s.checks.map (fun c => c.type.getD s.protocol))).flatten

/-- A fully succeeding environment: policy allows the deployment, every
launch yields a machine named after its input, and every other call
succeeds. -/
def envAllOk : FleetEnv :=
  { canPerform := true
    zombieDestroy := fun _ _ => none
    launch := fun li => Except.ok ⟨"g-" ++ li.id, "created", []⟩
    startWait := fun _ => none
    healthWait := fun _ => none
    uncordon := fun _ => none
    cordon := fun _ => none
    stop := fun _ => none
    stopWait := fun _ => none
    destroy := fun _ => none }

/-- An http-typed service check with no explicit port. -/
def checkHttp : MachineCheck := mkCheck none (some "http")

/-- A blue update entry with the given id, generation tag, services, and
pre-existing top-level checks. -/
def entryOf (mid tag : String) (svcs : List MachineService) (checks : List (String × MachineCheck)) : MachineUpdateEntry :=
  ⟨⟨mid, "started", []⟩, ⟨mid, false, false, ⟨[(flyctlBGTagKey, tag)], svcs, checks⟩⟩⟩

/-- A fresh strategy state over the given blue list with timestamp 300. -/
def bgInit (blues : List MachineUpdateEntry) : BlueGreen := ⟨[], blues, [], "300"⟩

/-- Three blue machines, one tagged 100 and two tagged 200 (the zombie
sweep scenario of the specification). -/
def cexBluesC1 : List MachineUpdateEntry :=
  [entryOf "m1" "100" [] [], entryOf "m2" "200" [] [], entryOf "m3" "200" [] []]

/-- Two single-tag blue machines, each with one top-level check. -/
def cexBluesChecked : List MachineUpdateEntry :=
  [entryOf "m1" "100" [] [("c", checkHttp)], entryOf "m2" "100" [] [("c", checkHttp)]]

/-- Like `envAllOk` but the force-destroy of machine m2 fails. -/
def envDestroyM2Fails : FleetEnv :=
  { envAllOk with destroy := fun id => if id == "m2" then some (GoError.msg "machine destroy failed") else none }

/-- Like `envAllOk` but machine m2 never reaches the stopped state. -/
def envStopWaitM2Fails : FleetEnv :=
  { envAllOk with stopWait := fun id => if id == "m2" then some (GoError.msg "machine still running") else none }

/-- A blue entry whose launch input has skip_launch set. -/
def cexSkipEntry : MachineUpdateEntry :=
  ⟨⟨"m1", "started", []⟩, ⟨"m1", true, false, ⟨[(flyctlBGTagKey, "100")], [], [("c", checkHttp)]⟩⟩⟩

/-- Two blue machines; m1 has a top-level check, m2 has none. -/
def cexBluesMixed : List MachineUpdateEntry :=
  [entryOf "m1" "100" [] [("c", checkHttp)], entryOf "m2" "100" [] []]

/-- Two blue machines with no checks anywhere. -/
def cexBluesNoChecks : List MachineUpdateEntry :=
  [entryOf "m1" "100" [] [], entryOf "m2" "100" [] []]

/-- A tcp service on port 80 with one check whose type is unset. -/
def svcNilType : MachineService := ⟨"tcp", 80, [mkCheck none none]⟩

/-- An entry carrying `svcNilType`. -/
def cexNilTypeEntry : MachineUpdateEntry := entryOf "m1" "100" [svcNilType] []

/-- A tcp service on port 80 with one http-typed check without a port. -/
def svcHttpTyped : MachineService := ⟨"tcp", 80, [mkCheck none (some "http")]⟩

/-- An entry carrying `svcHttpTyped`. -/
def cexTypedEntry : MachineUpdateEntry := entryOf "m1" "100" [svcHttpTyped] []

/-- A tcp service with two checks that both leave the type unset, so
both would default to the service protocol tcp. -/
def svcTwoNil : MachineService := ⟨"tcp", 80, [mkCheck none none, mkCheck (some 9090) none]⟩

/-- An entry carrying `svcTwoNil`. -/
def cexTwoNilEntry : MachineUpdateEntry := entryOf "m1" "100" [svcTwoNil] []

/-- A tcp service with two explicitly http-typed checks on different
ports. -/
def svcTwoHttp : MachineService := ⟨"tcp", 80, [mkCheck (some 1111) (some "http"), mkCheck (some 2222) (some "http")]⟩

/-- An entry carrying `svcTwoHttp`. -/
def cexTwoHttpEntry : MachineUpdateEntry := entryOf "m1" "100" [svcTwoHttp] []

/-- A strategy state holding two green machines and one hanging blue id. -/
def cexGreensBg : BlueGreen :=
  ⟨[entryOf "g1" "300" [] [], entryOf "g2" "300" [] []], [], ["m9"], "300"⟩

/-- An error whose chain carries the `ErrDestroyBlueMachines` sentinel. -/
def cexErrDestroy : GoError :=
  GoError.wrap errDestroyBlueMachinesMsg (GoError.msg "deployment aborted by user")

/-- An error whose chain does not carry the destroy sentinel. -/
def cexErrOther : GoError :=
  GoError.wrap errWaitForHealthyMsg (GoError.msg "wait timeout")

/-- A health table in which every machine has sampled and passes. -/
def cexHealthyTable : List (String × HealthCheckStatus) := [("a", ⟨2, 2⟩), ("b", ⟨1, 1⟩)]

/-- A green machine with no configured checks. -/
def cexNoCheckGreen : MachineUpdateEntry := entryOf "g1" "300" [] []

/-- The green entry produced for a blue entry under `envAllOk`. -/
def cexGreenOf (e : MachineUpdateEntry) : MachineUpdateEntry :=
  ⟨⟨"g-" ++ e.launchInput.id, "created", []⟩, greenLaunchInput "300" e⟩

/-- The greens created for `cexBluesChecked` under `envAllOk`-style
launches. -/
def cexGreensC7 : List MachineUpdateEntry := cexBluesChecked.map cexGreenOf

/-- The launch calls for `cexBluesChecked`. -/
def cexLcC7 : List LaunchMachineInput := cexBluesChecked.map (greenLaunchInput "300")

/-- The uncordon calls for `cexGreensC7`. -/
def cexUcC7 : List String := ["g-m1", "g-m2"]

theorem assocGet_assocSet {α : Type} (m : List (String × α)) (k k' : String) (v : α) :
    assocGet (assocSet m k v) k' = if k' = k then some v else assocGet m k' := by
  induction m with
  | nil =>
    by_cases h : k' = k
    · subst h
      simp [assocSet, assocGet]
    · have hkk : (k == k') = false := beq_eq_false_iff_ne.mpr (Ne.symm h)
      simp [assocSet, assocGet, hkk, h]
  | cons p rest ih =>
    by_cases hpk : p.1 = k
    · have hbe : (p.1 == k) = true := beq_iff_eq.mpr hpk
      by_cases hk : k' = k
      · subst hk
        simp [assocSet, assocGet, hbe]
      · have h1 : (k == k') = false := beq_eq_false_iff_ne.mpr (Ne.symm hk)
        have h2 : (p.1 == k') = false := by
          rw [hpk]
          exact h1
        simp [assocSet, assocGet, hbe, h1, h2, hk]
    · have hbe : (p.1 == k) = false := beq_eq_false_iff_ne.mpr hpk
      by_cases hpq : p.1 = k'
      · have h2 : (p.1 == k') = true := beq_iff_eq.mpr hpq
        have hk : ¬ k' = k := by
          rw [← hpq]
          exact fun hh => hpk hh
        simp [assocSet, assocGet, hbe, h2, hk]
      · have h2 : (p.1 == k') = false := beq_eq_false_iff_ne.mpr hpq
        simp only [assocSet, hbe, if_neg, Bool.false_eq_true, ite_false, assocGet,
          List.find?_cons, h2] at ih ⊢
        exact ih

theorem keysOf_nil {α : Type} : keysOf ([] : List (String × α)) = [] := rfl

theorem keysOf_cons {α : Type} (p : String × α) (rest : List (String × α)) :
    keysOf (p :: rest) = p.1 :: keysOf rest := rfl

theorem keysOf_assocSet {α : Type} (m : List (String × α)) (k : String) (v : α) :
    keysOf (assocSet m k v) = if k ∈ keysOf m then keysOf m else keysOf m ++ [k] := by
  induction m with
  | nil => simp [assocSet, keysOf]
  | cons p rest ih =>
    by_cases hpk : p.1 = k
    · have hbe : (p.1 == k) = true := beq_iff_eq.mpr hpk
      simp [assocSet, hbe, keysOf_cons, hpk]
    · have hbe : (p.1 == k) = false := beq_eq_false_iff_ne.mpr hpk
      have hne : ¬ k = p.1 := fun hh => hpk hh.symm
      simp only [assocSet, hbe, Bool.false_eq_true, reduceIte, keysOf_cons, ih,
        List.mem_cons, hne, false_or]
      by_cases hmem : k ∈ keysOf rest
      · simp [hmem]
      · simp [hmem]

theorem mem_keysOf_assocSet {α : Type} (m : List (String × α)) (k k' : String) (v : α) :
    k' ∈ keysOf (assocSet m k v) ↔ k' ∈ keysOf m ∨ k' = k := by
  rw [keysOf_assocSet]
  by_cases hmem : k ∈ keysOf m
  · simp only [hmem, reduceIte]
    constructor
    · exact fun h => Or.inl h
    · intro h
      rcases h with h | h
      · exact h
      · rw [h]; exact hmem
  · simp [hmem]

theorem nodup_keysOf_assocSet {α : Type} {m : List (String × α)} (k : String) (v : α)
    (h : (keysOf m).Nodup) : (keysOf (assocSet m k v)).Nodup := by
  rw [keysOf_assocSet]
  by_cases hmem : k ∈ keysOf m
  · simp [hmem, h]
  · simp [hmem, h, List.nodup_append, List.nodup_cons]

theorem length_assocSet {α : Type} (m : List (String × α)) (k : String) (v : α) :
    (assocSet m k v).length = if k ∈ keysOf m then m.length else m.length + 1 := by
  have h1 : (assocSet m k v).length = (keysOf (assocSet m k v)).length := by
    simp [keysOf]
  have h2 : (keysOf m).length = m.length := by
    simp [keysOf]
  rw [h1, keysOf_assocSet]
  by_cases hmem : k ∈ keysOf m
  · simp [hmem, h2]
  · simp [hmem, h2]

theorem insertAll_cons (m : List (String × MachineCheck)) (p : String × MachineCheck)
    (ps : List (String × MachineCheck)) :
    insertAll m (p :: ps) = insertAll (assocSet m p.1 p.2) ps := rfl

theorem insertAll_append (m : List (String × MachineCheck)) (ps qs : List (String × MachineCheck)) :
    insertAll m (ps ++ qs) = insertAll (insertAll m ps) qs := by
  simp [insertAll, List.foldl_append]

theorem mem_keysOf_insertAll (ps : List (String × MachineCheck)) (m : List (String × MachineCheck))
    (k' : String) :
    k' ∈ keysOf (insertAll m ps) ↔ k' ∈ keysOf m ∨ k' ∈ keysOf ps := by
  induction ps generalizing m with
  | nil => simp [insertAll, keysOf_nil]
  | cons p ps ih =>
    rw [insertAll_cons, ih, mem_keysOf_assocSet, keysOf_cons]
    simp only [List.mem_cons]
    tauto

theorem nodup_keysOf_insertAll (ps : List (String × MachineCheck)) {m : List (String × MachineCheck)}
    (h : (keysOf m).Nodup) : (keysOf (insertAll m ps)).Nodup := by
  induction ps generalizing m with
  | nil => exact h
  | cons p ps ih => exact ih (nodup_keysOf_assocSet p.1 p.2 h)

theorem length_insertAll_nil (ps : List (String × MachineCheck)) :
    (insertAll [] ps).length = (keysOf ps).dedup.length := by
  have h1 : (keysOf (insertAll [] ps)).Nodup := nodup_keysOf_insertAll ps (by simp [keysOf_nil])
  have h2 : (keysOf (insertAll [] ps)).toFinset = (keysOf ps).toFinset := by
    apply Finset.ext
    intro a
    simp only [List.mem_toFinset]
    rw [mem_keysOf_insertAll]
    simp [keysOf_nil]
  have h3 : (insertAll [] ps).length = (keysOf (insertAll [] ps)).length := by
    simp [keysOf]
  rw [h3, ← List.toFinset_card_of_nodup h1, h2, List.card_toFinset]

theorem assocGet_insertAll (ps : List (String × MachineCheck)) (m : List (String × MachineCheck))
    (k : String) :
    assocGet (insertAll m ps) k =
      match (ps.filterMap (fun p => if p.1 == k then some p.2 else none)).getLast? with
      | some v => some v
      | none => assocGet m k := by
  induction ps generalizing m with
  | nil => simp [insertAll]
  | cons p ps ih =>
    rw [insertAll_cons, ih, List.filterMap_cons]
    by_cases hpk : p.1 = k
    · have hbe : (p.1 == k) = true := beq_iff_eq.mpr hpk
      simp only [hbe, reduceIte]
      cases hrest : ps.filterMap (fun p => if p.1 == k then some p.2 else none) with
      | nil =>
        simp [assocGet_assocSet, hpk]
      | cons r rs =>
        cases hlast : (r :: rs).getLast? with
        | none =>
          exact absurd hlast (by simp)
        | some w =>
          have hcc : (p.2 :: r :: rs).getLast? = some w := by
            rw [List.getLast?_cons_cons, hlast]
          simp [hcc, hlast]
    · have hbe : (p.1 == k) = false := beq_eq_false_iff_ne.mpr hpk
      have hne : ¬ k = p.1 := fun hh => hpk hh.symm
      simp only [hbe, Bool.false_eq_true, reduceIte]
      cases hrest : ps.filterMap (fun p => if p.1 == k then some p.2 else none) with
      | nil =>
        simp [assocGet_assocSet, hne]
      | cons r rs =>
        cases hlast : (r :: rs).getLast? with
        | none =>
          exact absurd hlast (by simp)
        | some w =>
          simp [hlast]

theorem dedup_length_map_inj {f : String → String} (hf : ∀ a b, f a = f b → a = b)
    (l : List String) : ((l.map f).dedup).length = l.dedup.length := by
  induction l with
  | nil => simp
  | cons a l ih =>
    by_cases hmem : a ∈ l
    · have hfm : f a ∈ l.map f := List.mem_map_of_mem f hmem
      rw [List.map_cons, List.dedup_cons_of_mem hfm, List.dedup_cons_of_mem hmem, ih]
    · have hfm : f a ∉ l.map f := by
        intro hc
        rcases List.mem_map.mp hc with ⟨b, hb, hfb⟩
        exact hmem (hf b a hfb ▸ hb)
      rw [List.map_cons, List.dedup_cons_of_not_mem hfm, List.dedup_cons_of_not_mem hmem]
      simp [ih]

theorem bgKey_inj (t₁ t₂ : String) (h : "bg_deployments_" ++ t₁ = "bg_deployments_" ++ t₂) :
    t₁ = t₂ := by
  have hd := congrArg String.data h
  simp only [String.data_append] at hd
  exact String.ext (List.append_cancel_left hd)

theorem attachFold_eq (sp : Nat) (spr : String) (cs : List MachineCheck)
    (m : List (String × MachineCheck)) (h : cs.all (fun c => c.type.isSome) = true) :
    List.foldlM (fun acc c => attachCheck sp spr acc c) m cs =
      some (insertAll m (cs.map (fun c => ("bg_deployments_" ++ c.type.getD spr, defaultedCheck sp spr c)))) := by
  induction cs generalizing m with
  | nil => simp [insertAll]
  | cons c cs ih =>
    rw [List.all_cons] at h
    rcases Option.isSome_iff_exists.mp (Bool.and_elim_left h) with ⟨t, ht⟩
    rw [List.foldlM_cons]
    have hstep : attachCheck sp spr m c =
        some (assocSet m ("bg_deployments_" ++ c.type.getD spr) (defaultedCheck sp spr c)) := by
      simp [attachCheck, ht]
    rw [hstep]
    simp only [Option.bind_eq_bind, Option.some_bind]
    rw [ih _ (Bool.and_elim_right h)]
    rfl

theorem attachServiceChecks_eq (s : MachineService) (m : List (String × MachineCheck))
    (h : s.checks.all (fun c => c.type.isSome) = true) :
    attachServiceChecks s m = some (insertAll m (servicePairs s)) := by
  rw [attachServiceChecks, attachFold_eq s.internalPort s.protocol s.checks m h]
  rfl

theorem attachServicesFold_eq (ss : List MachineService) (m : List (String × MachineCheck))
    (h : ss.all (fun s => s.checks.all (fun c => c.type.isSome)) = true) :
    List.foldlM (fun acc s => attachServiceChecks s acc) m ss =
      some (insertAll m ((ss.map servicePairs).flatten)) := by
  induction ss generalizing m with
  | nil => simp [insertAll]
  | cons s ss ih =>
    rw [List.all_cons] at h
    rw [List.foldlM_cons, attachServiceChecks_eq s m (Bool.and_elim_left h)]
    simp only [Option.bind_eq_bind, Option.some_bind]
    rw [ih _ (Bool.and_elim_right h), List.map_cons, List.flatten_cons, insertAll_append]

theorem attachChecksToEntry_eq (e : MachineUpdateEntry)
    (h : e.launchInput.config.services.all (fun s => s.checks.all (fun c => c.type.isSome)) = true) :
    attachChecksToEntry e =
      some { e with launchInput := { e.launchInput with config := { e.launchInput.config with
        checks := insertAll e.launchInput.config.checks (entryCheckPairs e) } } } := by
  rw [attachChecksToEntry, attachServicesFold_eq _ _ h]
  rfl

theorem destroyBlueLoop_eq (env : FleetEnv) (l : List MachineUpdateEntry) :
    destroyBlueLoop env l =
      (l.map (fun b => b.machine.id),
       (l.filter (fun b => (env.destroy b.machine.id).isSome)).map (fun b => b.launchInput.id)) := by
  induction l with
  | nil => simp [destroyBlueLoop]
  | cons b rest ih =>
    rw [destroyBlueLoop, ih]
    cases hd : env.destroy b.machine.id with
    | none => simp [List.filter_cons, hd]
    | some e => simp [List.filter_cons, hd]

theorem zombieDestroyLoop_ok (env : FleetEnv) (l : List MachineUpdateEntry)
    (h : l.all (fun b => retryDestroy env b.machine.id) = true) :
    zombieDestroyLoop env l = (Except.ok (), l.map (fun b => b.machine.id)) := by
  induction l with
  | nil => simp [zombieDestroyLoop]
  | cons b rest ih =>
    rw [List.all_cons] at h
    rw [zombieDestroyLoop, ih (Bool.and_elim_right h)]
    simp [Bool.and_elim_left h]

theorem rollbackGreenLoop_ok (env : FleetEnv) (l : List MachineUpdateEntry)
    (h : l.all (fun g => (env.destroy g.machine.id).isNone) = true) :
    rollbackGreenLoop env l = (none, l.map (fun g => g.machine.id)) := by
  induction l with
  | nil => simp [rollbackGreenLoop]
  | cons g rest ih =>
    rw [List.all_cons] at h
    have hd : env.destroy g.machine.id = none :=
      Option.isNone_iff_eq_none.mp (Bool.and_elim_left h)
    rw [rollbackGreenLoop, ih (Bool.and_elim_right h), hd]
    simp

theorem createGreensLoop_ok (env : FleetEnv) (ts : String) (l : List MachineUpdateEntry)
    (h : l.all (fun e => (env.launch (greenLaunchInput ts e)).isOk) = true) :
    (createGreensLoop env ts l).2 = l.map (greenLaunchInput ts)
    ∧ ∃ greens, createGreensLoop env ts l = (Except.ok greens, l.map (greenLaunchInput ts)) := by
  induction l with
  | nil => exact ⟨rfl, [], rfl⟩
  | cons e rest ih =>
    rw [List.all_cons] at h
    have h1 := Bool.and_elim_left h
    rcases ih (Bool.and_elim_right h) with ⟨-, greens, hg⟩
    cases hl : env.launch (greenLaunchInput ts e) with
    | error err => rw [hl] at h1; simp [Except.isOk, Except.toBool] at h1
    | ok mach =>
      constructor
      · rw [createGreensLoop, hl, hg]
        simp
      · refine ⟨⟨mach, greenLaunchInput ts e⟩ :: greens, ?_⟩
        rw [createGreensLoop, hl, hg]
        simp

theorem sortInts_head_min {l : List Int} {m : Int} (h : (sortInts l).head? = some m) :
    m ∈ l ∧ ∀ x ∈ l, m ≤ x := by
  have hperm := List.perm_insertionSort (fun a b : Int => a ≤ b) l
  have hsort := List.sorted_insertionSort (fun a b : Int => a ≤ b) l
  rw [show List.insertionSort (fun a b : Int => a ≤ b) l = sortInts l from rfl] at hperm hsort
  cases hs : sortInts l with
  | nil => rw [hs] at h; simp at h
  | cons a t =>
    rw [hs] at h hperm hsort
    simp only [List.head?_cons, Option.some.injEq] at h
    rw [List.sorted_cons] at hsort
    constructor
    · rw [← h]
      exact hperm.subset (List.mem_cons_self _ _)
    · intro x hx
      have hx2 : x ∈ a :: t := hperm.mem_iff.mpr hx
      rw [← h]
      rcases List.mem_cons.mp hx2 with hx3 | hx3
      · rw [hx3]
      · exact hsort.1 x hx3

theorem stopFailures_length (env : FleetEnv) (blues : List MachineUpdateEntry) :
    (stopFailures env blues).length = blues.countP (fun b => (env.stopWait b.machine.id).isSome) := by
  induction blues with
  | nil => simp [stopFailures]
  | cons b rest ih =>
    rw [stopFailures] at ih ⊢
    rw [List.filterMap_cons]
    cases hd : env.stopWait b.machine.id with
    | none => simp [hd, List.countP_cons, ih]
    | some e => simp [hd, List.countP_cons, ih]

theorem waitStop_none_iff (env : FleetEnv) (blues : List MachineUpdateEntry) :
    waitForBlueMachinesToBeStopped env blues = none ↔ stopFailures env blues = [] := by
  rw [waitForBlueMachinesToBeStopped]
  cases hs : stopFailures env blues with
  | nil => simp
  | cons e rest => simp

theorem waitStop_multi (env : FleetEnv) (blues : List MachineUpdateEntry)
    (h : stopFailures env blues ≠ []) :
    waitForBlueMachinesToBeStopped env blues = some (GoError.multi (stopFailures env blues)) := by
  rw [waitForBlueMachinesToBeStopped]
  cases hs : stopFailures env blues with
  | nil => exact absurd hs h
  | cons e rest => rfl

theorem sweep_ok_fields (env : FleetEnv) (bg bg1 : BlueGreen) (zc : List String)
    (h : deleteZombiesFromPreviousDeployment env bg = (Except.ok bg1, zc)) :
    bg1.hangingBlueMachines = bg.hangingBlueMachines ∧ bg1.timestamp = bg.timestamp
    ∧ bg1.greenMachines = bg.greenMachines := by
  rw [deleteZombiesFromPreviousDeployment] at h
  split at h
  · simp only [Prod.mk.injEq, Except.ok.injEq] at h
    rw [← h.1]
    exact ⟨rfl, rfl, rfl⟩
  · split at h
    · simp at h
    · split at h
      · simp at h
      · simp only [Prod.mk.injEq, Except.ok.injEq] at h
        rw [← h.1]
        exact ⟨rfl, rfl, rfl⟩

/-- C3: the zombie sweep with a singleton tag set returns cleanly with no
destroy calls, but — against the claim that any tag-set of size at most
one returns without destroying, in particular an empty blue list — the
sweep over an empty blue list reaches `getZombies` (the guard tests
`len(tags) == 1`, not `<= 1`) and panics on `numbers[0]` over the empty
slice, so the claimed no-blue short-circuit does not exist. -/
theorem c3_singleTag_clean_but_empty_panics :
    deleteZombiesFromPreviousDeployment envAllOk (bgInit cexBluesNoChecks) =
      (Except.ok (bgInit cexBluesNoChecks), [])
  ∧ deleteZombiesFromPreviousDeployment envAllOk (bgInit []) =
      (Except.error (RunErr.panicked "index out of range in getZombies"), []) :=
  ⟨rfl, rfl⟩

/-- C6: `attachCustomTopLevelChecks` is not total: on a service check
whose type is unset it builds the map key by dereferencing the original
nil `check.Type` pointer and panics (first conjunct), even though the
synthesized check itself defaults the port to the service internal port
and the type to the service protocol exactly as claimed (remaining
conjuncts). -/
theorem c6_attach_panics_on_nil_type :
    attachChecksToEntry cexNilTypeEntry = none
  ∧ attachChecksToEntry cexTypedEntry =
      some { cexTypedEntry with launchInput := { cexTypedEntry.launchInput with
        config := { cexTypedEntry.launchInput.config with
          checks := [("bg_deployments_http", defaultedCheck 80 "tcp" (mkCheck none (some "http")))] } } }
  ∧ (defaultedCheck 80 "tcp" (mkCheck none (some "http"))).port = some 80
  ∧ (defaultedCheck 80 "tcp" (mkCheck none none)).type = some "tcp" :=
  ⟨rfl, rfl, rfl, rfl⟩

/-- C9: `allMachinesHealthy` is true exactly when every table entry has
a positive total equal to its passing count; the empty table passes
vacuously; and a green machine with zero configured checks receives no
health-table entry (and adding one leaves the table unchanged). -/
theorem c9_allMachinesHealthy_iff :
    (∀ t : List (String × HealthCheckStatus),
        allMachinesHealthy t = true ↔ ∀ p ∈ t, 0 < p.2.total ∧ p.2.passing = p.2.total)
  ∧ allMachinesHealthy [] = true
  ∧ (∀ greens : List MachineUpdateEntry, ∀ g : MachineUpdateEntry,
        g.machine.checks = [] → g ∉ healthTableEntries greens)
  ∧ (∀ greens : List MachineUpdateEntry, ∀ g : MachineUpdateEntry,
        g.machine.checks = [] → healthTableEntries (g :: greens) = healthTableEntries greens) := by
  refine ⟨?_, rfl, ?_, ?_⟩
  · intro t
    rw [allMachinesHealthy, beq_iff_eq, List.countP_eq_length]
    constructor
    · intro h p hp
      have h2 := h p hp
      simp only [Bool.and_eq_true, Bool.not_eq_true', beq_eq_false_iff_ne, beq_iff_eq] at h2
      exact ⟨Nat.pos_of_ne_zero h2.1, h2.2⟩
    · intro h p hp
      have h2 := h p hp
      simp only [Bool.and_eq_true, Bool.not_eq_true', beq_eq_false_iff_ne, beq_iff_eq]
      exact ⟨Nat.pos_iff_ne_zero.mp h2.1, h2.2⟩
  · intro greens g hc hmem
    rw [healthTableEntries, List.mem_filter] at hmem
    have h2 := hmem.2
    simp [hc] at h2
  · intro greens g hc
    rw [healthTableEntries, healthTableEntries, List.filter_cons]
    simp [hc]

/-- C9 witness: a concrete passing table and a concrete checkless green
machine, via `c9_allMachinesHealthy_iff`. -/
theorem c9_witness :
    allMachinesHealthy cexHealthyTable = true ∧ healthTableEntries [cexNoCheckGreen] = [] := by
  constructor
  · exact (c9_allMachinesHealthy_iff.1 cexHealthyTable).mpr (by decide)
  · exact (c9_allMachinesHealthy_iff.2.2.2 [] cexNoCheckGreen rfl).trans rfl

/-- C2 counterexample: a full deployment in which one blue machine's
force-destroy fails still returns nil — `Deploy` never sees an error
from `DestroyBlueMachines` and never wraps `ErrDestroyBlueMachines` —
while the failing machine's id is recorded in the hanging list and the
other machine is still destroyed.  The claim's "the phase returns a
non-nil error that Deploy wraps" is false on this input. -/
theorem c2_counterexample :
    (deploy envDestroyM2Fails (bgInit cexBluesChecked)).1 = Except.ok ()
  ∧ (deploy envDestroyM2Fails (bgInit cexBluesChecked)).2.1.hangingBlueMachines = ["m2"]
  ∧ (deploy envDestroyM2Fails (bgInit cexBluesChecked)).2.2.blueDestroyCalls = ["m1", "m2"] :=
  ⟨rfl, rfl, rfl⟩

/-- C2 as amended: in `DestroyBlueMachines` every failing machine's
launch-input id is appended to the hanging list and destruction
continues through every blue machine, but the phase returns nil on any
non-aborted run, so `Deploy` has nothing to wrap with the
`ErrDestroyBlueMachines` sentinel. -/
theorem c2_destroy_records_hanging_returns_nil (env : FleetEnv) (bg : BlueGreen) :
    (destroyBlueMachines env bg).2 = none
  ∧ (destroyBlueMachines env bg).1.hangingBlueMachines =
      bg.hangingBlueMachines ++
        (bg.blueMachines.filter (fun b => (env.destroy b.machine.id).isSome)).map (fun b => b.launchInput.id)
  ∧ (destroyBlueMachines env bg).1.blueMachines = bg.blueMachines
  ∧ (destroyBlueLoop env bg.blueMachines).1 = bg.blueMachines.map (fun b => b.machine.id) := by
  refine ⟨?_, ?_, ?_, ?_⟩
  · rw [destroyBlueMachines, destroyBlueLoop_eq]
  · rw [destroyBlueMachines, destroyBlueLoop_eq]
  · rw [destroyBlueMachines, destroyBlueLoop_eq]
  · rw [destroyBlueLoop_eq]

/-- C8: `Rollback` classifies by sub-string matching the error message
against the `ErrDestroyBlueMachines` sentinel text: on a match it
reports the hanging ids and returns nil without destroying any green;
otherwise it force-destroys every green machine (shown for runs where
the destroys succeed) and returns nil. -/
theorem c8_rollback_branches (env : FleetEnv) (bg : BlueGreen) (err : GoError) :
    (goContains (errString err) errDestroyBlueMachinesMsg = true →
       rollback env bg err = (bg.hangingBlueMachines, [], none))
  ∧ (goContains (errString err) errDestroyBlueMachinesMsg = false →
       bg.greenMachines.all (fun g => (env.destroy g.machine.id).isNone) = true →
       rollback env bg err = ([], bg.greenMachines.map (fun g => g.machine.id), none)) := by
  constructor
  · intro h
    rw [rollback, h]
    rfl
  · intro h hall
    rw [rollback, h]
    simp only [Bool.false_eq_true, reduceIte]
    rw [rollbackGreenLoop_ok env _ hall]

/-- C8 witness: a destroy-sentinel error skips green destruction and
reports the hanging id; a health-phase error destroys both greens. -/
theorem c8_witness :
    rollback envAllOk cexGreensBg cexErrDestroy = (cexGreensBg.hangingBlueMachines, [], none)
  ∧ rollback envAllOk cexGreensBg cexErrOther =
      ([], cexGreensBg.greenMachines.map (fun g => g.machine.id), none) := by
  constructor
  · exact (c8_rollback_branches envAllOk cexGreensBg cexErrDestroy).1 (by decide)
  · exact (c8_rollback_branches envAllOk cexGreensBg cexErrOther).2 (by decide) (by decide)

/-- C4 counterexample: a blue entry with skip_launch set is still
launched by `CreateGreenMachines` (the loop has no skip_launch test) and
is still cordoned, stopped and force-destroyed by the blue-teardown
phases, against the claim that such an entry contributes to none of
these phases. -/
theorem c4_counterexample :
    (createGreensLoop envAllOk "300" [cexSkipEntry]).2 = [greenLaunchInput "300" cexSkipEntry]
  ∧ (createGreensLoop envAllOk "300" [cexSkipEntry]).2 ≠ []
  ∧ (destroyBlueLoop envAllOk [cexSkipEntry]).1 = ["m1"]
  ∧ cordonBlueMachinesCalls [cexSkipEntry] = ["m1"]
  ∧ stopBlueMachinesCalls [cexSkipEntry] = ["m1"] :=
  ⟨rfl, by decide, rfl, rfl, rfl⟩

/-- C4 as amended: skip_launch affects exactly the two green wait
phases — a skip_launch green entry is pre-marked started in the
start-wait state table, spawns no waiter, and gets no health-table
entry — while `CreateGreenMachines` still launches a green for every
blue entry and the cordon, stop, and destroy loops still process every
blue machine, skip_launch or not. -/
theorem c4_skipLaunch_only_wait_phases (env : FleetEnv) (ts : String)
    (blues greens : List MachineUpdateEntry) (b g : MachineUpdateEntry)
    (hlaunch : blues.all (fun e => (env.launch (greenLaunchInput ts e)).isOk) = true)
    (hg : g ∈ greens) (hskip : g.launchInput.skipLaunch = true) (hb : b ∈ blues) :
    (createGreensLoop env ts blues).2 = blues.map (greenLaunchInput ts)
  ∧ (g.machine.id, "started") ∈ startWaitInitialStates greens
  ∧ g ∉ greens.filter (fun x => !x.launchInput.skipLaunch)
  ∧ g ∉ healthTableEntries greens
  ∧ b.machine.id ∈ cordonBlueMachinesCalls blues
  ∧ b.machine.id ∈ stopBlueMachinesCalls blues
  ∧ b.machine.id ∈ (destroyBlueLoop env blues).1 := by
  refine ⟨(createGreensLoop_ok env ts blues hlaunch).1, ?_, ?_, ?_, ?_, ?_, ?_⟩
  · have h := List.mem_map_of_mem
      (fun x : MachineUpdateEntry =>
        (x.machine.id, if x.launchInput.skipLaunch then "started" else "created")) hg
    rw [startWaitInitialStates]
    simpa [hskip] using h
  · intro hmem
    rw [List.mem_filter] at hmem
    rw [hskip] at hmem
    simp at hmem
  · intro hmem
    rw [healthTableEntries, List.mem_filter] at hmem
    have h2 := hmem.2
    rw [hskip] at h2
    simp at h2
  · exact List.mem_map_of_mem (fun x : MachineUpdateEntry => x.machine.id) hb
  · exact List.mem_map_of_mem (fun x : MachineUpdateEntry => x.machine.id) hb
  · rw [destroyBlueLoop_eq]
    exact List.mem_map_of_mem (fun x : MachineUpdateEntry => x.machine.id) hb

/-- C4 witness: the amended statement instantiated at a single
skip_launch entry and its green. -/
theorem c4_witness :
    (createGreensLoop envAllOk "300" [cexSkipEntry]).2 = [greenLaunchInput "300" cexSkipEntry]
  ∧ ((cexGreenOf cexSkipEntry).machine.id, "started")
      ∈ startWaitInitialStates [cexGreenOf cexSkipEntry]
  ∧ cexSkipEntry.machine.id ∈ (destroyBlueLoop envAllOk [cexSkipEntry]).1 := by
  have h := c4_skipLaunch_only_wait_phases envAllOk "300" [cexSkipEntry]
    [cexGreenOf cexSkipEntry] cexSkipEntry (cexGreenOf cexSkipEntry) (by decide)
    (List.mem_cons_self _ _) rfl (List.mem_cons_self _ _)
  exact ⟨h.1, h.2.1, h.2.2.2.2.2.2⟩

/-- C5 counterexample: a blue list in which one launch spec has zero
top-level checks after propagation while another has one does not fail
validation — `Deploy` only errors when the count of entries with checks
is zero — so both greens are created and the deployment completes,
against the claim that any single zero-check spec yields
`ErrValidationError` with no greens created. -/
theorem c5_counterexample :
    (deploy envAllOk (bgInit cexBluesMixed)).1 = Except.ok ()
  ∧ ((deploy envAllOk (bgInit cexBluesMixed)).2.2.launchCalls.map (fun li => li.id)) = ["m1", "m2"]
  ∧ cexBluesMixed.any (fun e => e.launchInput.config.checks.length == 0) = true :=
  ⟨rfl, rfl, rfl⟩

/-- C5 as amended: `Deploy` returns `ErrValidationError` before creating
any green machine when, after check propagation, every launch spec has
zero top-level checks and the blue list is non-empty; and with an empty
blue list no `ErrValidationError` is ever raised (the run fails earlier,
in the zombie sweep). -/
theorem c5_validation_requires_all_zero (env : FleetEnv) (bg bg1 : BlueGreen) (zc : List String)
    (blues2 : List MachineUpdateEntry)
    (hcan : env.canPerform = true)
    (hsweep : deleteZombiesFromPreviousDeployment env bg = (Except.ok bg1, zc))
    (hattach : bg1.blueMachines.mapM attachChecksToEntry = some blues2)
    (hne : blues2 ≠ [])
    (hzero : ∀ e ∈ blues2, e.launchInput.config.checks = []) :
    (deploy env bg).1 = Except.error (RunErr.go ErrValidationError)
  ∧ (deploy env bg).2.2.launchCalls = []
  ∧ (∀ env2 : FleetEnv, ∀ bg2 : BlueGreen, bg2.blueMachines = [] →
      (deploy env2 bg2).1 ≠ Except.error (RunErr.go ErrValidationError)) := by
  have htot : totalChecks blues2 = 0 := by
    rw [totalChecks, List.countP_eq_zero]
    intro e he
    simp [hzero e he]
  have hlen : (blues2.length == 0) = false := by
    rw [beq_eq_false_iff_ne]
    intro hh
    exact hne (List.length_eq_zero.mp hh)
  have hcond : (totalChecks blues2 == 0 && !(blues2.length == 0)) = true := by
    rw [htot, hlen]
    rfl
  have hmain : deploy env bg =
      (Except.error (RunErr.go ErrValidationError), { bg1 with blueMachines := blues2 },
        { emptyTrace with zombieDestroyCalls := zc }) := by
    rw [deploy]
    simp only [hcan, reduceIte, hsweep, hattach, hcond, reduceIte]
  refine ⟨by rw [hmain], by rw [hmain]; rfl, ?_⟩
  intro env2 bg2 hempty
  have hsw : deleteZombiesFromPreviousDeployment env2 bg2 =
      (Except.error (RunErr.panicked "index out of range in getZombies"), []) := by
    rw [deleteZombiesFromPreviousDeployment, hempty]
    rfl
  by_cases hc2 : env2.canPerform
  · rw [deploy]
    simp only [hc2, reduceIte, hsw]
    intro hcontra
    simp at hcontra
  · rw [deploy]
    simp only [hc2, Bool.false_eq_true, reduceIte]
    intro hcontra
    simp only [Except.error.injEq, RunErr.go.injEq, ErrOrgLimit, ErrValidationError,
      GoError.msg.injEq] at hcontra
    exact absurd hcontra (by decide)

/-- C5 witness: the amended statement instantiated at two blue machines
with no checks anywhere. -/
theorem c5_witness :
    (deploy envAllOk (bgInit cexBluesNoChecks)).1 = Except.error (RunErr.go ErrValidationError)
  ∧ (deploy envAllOk (bgInit cexBluesNoChecks)).2.2.launchCalls = [] := by
  have h := c5_validation_requires_all_zero envAllOk (bgInit cexBluesNoChecks)
    (bgInit cexBluesNoChecks) [] cexBluesNoChecks rfl rfl rfl (by decide) (by decide)
  exact ⟨h.1, h.2.1⟩

/-- C1 counterexample: on blue machines tagged 100, 200, 200 the sweep
destroys the two machines tagged 200 and keeps the machine tagged 100 —
`getZombies` deletes the smallest parsed tag from the zombie set, so the
largest tag is treated as zombie — refuting the claim that the largest
tag is declared alive (which predicted m1 destroyed and m2, m3
surviving). -/
theorem c1_counterexample :
    deleteZombiesFromPreviousDeployment envAllOk (bgInit cexBluesC1) =
      (Except.ok { bgInit cexBluesC1 with blueMachines := [entryOf "m1" "100" [] []] },
       ["m2", "m3"])
  ∧ (deleteZombiesFromPreviousDeployment envAllOk (bgInit cexBluesC1)).2 ≠ ["m1"] :=
  ⟨rfl, by decide⟩

/-- C1 as amended: when the normalized tag set has at least two elements
and every tag parses as an integer, the sweep declares the *smallest*
parsed tag alive (first conjunct: it is a lower bound of all parsed
tags), force-destroys (with retries) exactly the machines whose tag
differs from the printed smallest tag, and the surviving blue list is
exactly the entries carrying the printed smallest tag. -/
theorem c1_sweep_keeps_smallest_tag (env : FleetEnv) (bg : BlueGreen) (ns : List Int) (m : Int)
    (hparse : (((bg.blueMachines.map normalizeEntryTag).map tagOf).dedup).mapM atoi = some ns)
    (hlen : ((((bg.blueMachines.map normalizeEntryTag).map tagOf).dedup).length == 1) = false)
    (hmin : (sortInts ns).head? = some m)
    (hdestroy : ((bg.blueMachines.map normalizeEntryTag).filter
        (fun b => !(tagOf b == goSprintInt m))).all (fun b => retryDestroy env b.machine.id) = true) :
    (∀ x ∈ ns, m ≤ x)
  ∧ deleteZombiesFromPreviousDeployment env bg =
      (Except.ok { bg with blueMachines :=
          (bg.blueMachines.map normalizeEntryTag).filter (fun b => tagOf b == goSprintInt m) },
       ((bg.blueMachines.map normalizeEntryTag).filter
          (fun b => !(tagOf b == goSprintInt m))).map (fun b => b.machine.id)) := by
  refine ⟨(sortInts_head_min hmin).2, ?_⟩
  have hzom : getZombies (((bg.blueMachines.map normalizeEntryTag).map tagOf).dedup) =
      Except.ok ((((bg.blueMachines.map normalizeEntryTag).map tagOf).dedup).filter
        (fun t => !(t == goSprintInt m))) := by
    rw [getZombies, hparse]
    simp only [hmin]
  have hpt : ∀ b ∈ bg.blueMachines.map normalizeEntryTag,
      ((((bg.blueMachines.map normalizeEntryTag).map tagOf).dedup).filter
        (fun t => !(t == goSprintInt m))).contains (tagOf b) = !(tagOf b == goSprintInt m) := by
    intro b hb
    have hmem : tagOf b ∈ ((bg.blueMachines.map normalizeEntryTag).map tagOf).dedup :=
      List.mem_dedup.mpr (List.mem_map_of_mem tagOf hb)
    by_cases hEq : (tagOf b == goSprintInt m) = true
    · rw [hEq]
      rw [Bool.not_true]
      rw [← Bool.not_eq_true]
      intro hcon
      have hmem2 := List.elem_iff.mp hcon
      rw [List.mem_filter] at hmem2
      rw [hEq] at hmem2
      simp at hmem2
    · have hEq2 : (tagOf b == goSprintInt m) = false := Bool.eq_false_iff.mpr hEq
      rw [hEq2]
      rw [Bool.not_false]
      apply List.elem_iff.mpr
      rw [List.mem_filter]
      exact ⟨hmem, by rw [hEq2]; rfl⟩
  have hf1 : (bg.blueMachines.map normalizeEntryTag).filter
      (fun b => ((((bg.blueMachines.map normalizeEntryTag).map tagOf).dedup).filter
        (fun t => !(t == goSprintInt m))).contains (tagOf b)) =
      (bg.blueMachines.map normalizeEntryTag).filter (fun b => !(tagOf b == goSprintInt m)) :=
    List.filter_congr hpt
  have hf2 : (bg.blueMachines.map normalizeEntryTag).filter
      (fun b => !((((bg.blueMachines.map normalizeEntryTag).map tagOf).dedup).filter
        (fun t => !(t == goSprintInt m))).contains (tagOf b)) =
      (bg.blueMachines.map normalizeEntryTag).filter (fun b => tagOf b == goSprintInt m) := by
    apply List.filter_congr
    intro b hb
    rw [hpt b hb, Bool.not_not]
  rw [deleteZombiesFromPreviousDeployment]
  simp only [hlen, Bool.false_eq_true, reduceIte, hzom, hf1, hf2,
    zombieDestroyLoop_ok env _ hdestroy]

/-- C1 witness: the amended statement instantiated at tags 100, 200,
200, where the smallest parsed tag 100 is the lower bound and the
survivors are exactly the machines tagged 100. -/
theorem c1_witness :
    ((100 : Int) ≤ 200)
  ∧ deleteZombiesFromPreviousDeployment envAllOk (bgInit cexBluesC1) =
      (Except.ok { bgInit cexBluesC1 with blueMachines :=
          (cexBluesC1.map normalizeEntryTag).filter (fun b => tagOf b == goSprintInt 100) },
       ((cexBluesC1.map normalizeEntryTag).filter
          (fun b => !(tagOf b == goSprintInt 100))).map (fun b => b.machine.id)) := by
  have h := c1_sweep_keeps_smallest_tag envAllOk (bgInit cexBluesC1) [100, 200] 100
    (by decide) (by decide) (by decide) (by decide)
  exact ⟨h.1 200 (by decide), h.2⟩

theorem destroyBlueMachines_eq (env : FleetEnv) (bg : BlueGreen) :
    destroyBlueMachines env bg =
      ({ bg with hangingBlueMachines :=
          bg.hangingBlueMachines ++ (bg.blueMachines.filter (fun b => (env.destroy b.machine.id).isSome)).map (fun b => b.launchInput.id) },
       none) := by
  rw [destroyBlueMachines, destroyBlueLoop_eq]

/-- C7: `WaitForBlueMachinesToBeStopped` aggregates the failures of
every waiter — it is nil exactly when no machine failed, and otherwise
returns one multierror whose size counts every failing machine across
the whole blue list (conjuncts 1 to 3); and a `Deploy` run in which the
stop-wait phase returns such an aggregate treats it as non-fatal: the
destroy phase still runs over every blue machine and, when every destroy
succeeds, `Deploy` returns nil with an unchanged hanging list (conjunct
4). -/
theorem c7_stop_wait_aggregate_nonfatal :
    (∀ (env : FleetEnv) (blues : List MachineUpdateEntry),
        waitForBlueMachinesToBeStopped env blues = none ↔ stopFailures env blues = [])
  ∧ (∀ (env : FleetEnv) (blues : List MachineUpdateEntry), stopFailures env blues ≠ [] →
        waitForBlueMachinesToBeStopped env blues = some (GoError.multi (stopFailures env blues)))
  ∧ (∀ (env : FleetEnv) (blues : List MachineUpdateEntry),
        (stopFailures env blues).length = blues.countP (fun b => (env.stopWait b.machine.id).isSome))
  ∧ (∀ (env : FleetEnv) (bg bg1 : BlueGreen) (zc : List String)
        (blues2 greens : List MachineUpdateEntry) (lc : List LaunchMachineInput) (uc : List String),
        env.canPerform = true →
        deleteZombiesFromPreviousDeployment env bg = (Except.ok bg1, zc) →
        bg1.blueMachines.mapM attachChecksToEntry = some blues2 →
        (totalChecks blues2 == 0 && !(blues2.length == 0)) = false →
        createGreensLoop env bg1.timestamp blues2 = (Except.ok greens, lc) →
        waitForGreenMachinesToBeStarted env greens = none →
        waitForGreenMachinesToBeHealthy env greens = none →
        uncordonLoop env greens = (none, uc) →
        stopFailures env blues2 ≠ [] →
        blues2.all (fun b => (env.destroy b.machine.id).isNone) = true →
        (deploy env bg).1 = Except.ok ()
        ∧ (deploy env bg).2.2.blueDestroyCalls = blues2.map (fun b => b.machine.id)
        ∧ (deploy env bg).2.1.hangingBlueMachines = bg.hangingBlueMachines) := by
  refine ⟨waitStop_none_iff, waitStop_multi, stopFailures_length, ?_⟩
  intro env bg bg1 zc blues2 greens lc uc hcan hsweep hattach hvalid hcreate hstart hhealth hunc
    hstop hdestroy
  obtain ⟨hh, ht, hgm⟩ := sweep_ok_fields env bg bg1 zc hsweep
  have hfilter : blues2.filter (fun b => (env.destroy b.machine.id).isSome) = [] := by
    rw [List.filter_eq_nil_iff]
    intro b hb
    have hx := List.all_eq_true.mp hdestroy b hb
    simp only [Option.isNone_iff_eq_none] at hx
    simp [hx]
  have hmulti := waitStop_multi env blues2 hstop
  refine ⟨?_, ?_, ?_⟩
  · rw [deploy]
    simp only [hcan, reduceIte, hsweep, hattach, hvalid, Bool.false_eq_true, reduceIte,
      hcreate, hstart, hhealth, hunc, hmulti, deployDestroySection, destroyBlueMachines_eq,
      hfilter, destroyBlueLoop_eq]
  · rw [deploy]
    simp only [hcan, reduceIte, hsweep, hattach, hvalid, Bool.false_eq_true, reduceIte,
      hcreate, hstart, hhealth, hunc, hmulti, deployDestroySection, destroyBlueMachines_eq,
      hfilter, destroyBlueLoop_eq]
  · rw [deploy]
    simp only [hcan, reduceIte, hsweep, hattach, hvalid, Bool.false_eq_true, reduceIte,
      hcreate, hstart, hhealth, hunc, hmulti, deployDestroySection, destroyBlueMachines_eq,
      hfilter, destroyBlueLoop_eq]
    simp [hh]

/-- C7 witness: two blue machines where m2 never stops; the aggregate is
logged, both machines are still destroyed, and the deployment returns
nil. -/
theorem c7_witness :
    (deploy envStopWaitM2Fails (bgInit cexBluesChecked)).1 = Except.ok ()
  ∧ (deploy envStopWaitM2Fails (bgInit cexBluesChecked)).2.2.blueDestroyCalls = ["m1", "m2"] := by
  have hne : stopFailures envStopWaitM2Fails cexBluesChecked ≠ [] := by
    have h0 : stopFailures envStopWaitM2Fails cexBluesChecked =
        [GoError.msg "failed to stop machine m2: machine still running"] := rfl
    rw [h0]
    exact List.cons_ne_nil _ _
  have h := c7_stop_wait_aggregate_nonfatal.2.2.2 envStopWaitM2Fails
    (bgInit cexBluesChecked) (bgInit cexBluesChecked) [] cexBluesChecked cexGreensC7
    cexLcC7 cexUcC7 rfl rfl rfl rfl rfl rfl rfl rfl hne rfl
  exact ⟨h.1, h.2.1⟩

/-- C10 counterexample: a single service with two checks that share the
same defaulted type (both unset, defaulting to the service protocol tcp)
does not produce one surviving key "bg_deployments_tcp": the key is
built from the original nil type pointer, so the function faults instead
of keying them, refuting the claim for defaulted types. -/
theorem c10_counterexample :
    attachChecksToEntry cexTwoNilEntry = none
  ∧ (mkCheck none none).type.getD "tcp" = (mkCheck (some 9090) none).type.getD "tcp" :=
  ⟨rfl, rfl⟩

/-- C10 as amended: for an entry whose service checks all carry an
explicit type and whose top-level checks map starts empty, checks
sharing a type collide on the key "bg_deployments_(type)" and only the
last such check (in service order, then check order) survives: the
resulting map, read at any key, holds the defaulted copy of the last
pair inserted under that key, and its size is the number of distinct
check types across the entry's services, not the number of service
checks. -/
theorem c10_same_type_last_wins (e : MachineUpdateEntry)
    (htypes : e.launchInput.config.services.all (fun s => s.checks.all (fun c => c.type.isSome)) = true)
    (hempty : e.launchInput.config.checks = []) :
    (∃ e2, attachChecksToEntry e = some e2
      ∧ e2.launchInput.config.checks = insertAll [] (entryCheckPairs e)
      ∧ e2.launchInput.config.checks.length = (entryCheckTypes e).dedup.length
      ∧ (∀ k, assocGet e2.launchInput.config.checks k =
          ((entryCheckPairs e).filterMap (fun p => if p.1 == k then some p.2 else none)).getLast?))
  ∧ (∀ t₁ t₂ : String, ("bg_deployments_" ++ t₁ = "bg_deployments_" ++ t₂) ↔ t₁ = t₂) := by
  constructor
  · refine ⟨_, attachChecksToEntry_eq e htypes, ?_, ?_, ?_⟩
    · simp only [hempty]
    · simp only [hempty]
      have hkeys : keysOf (entryCheckPairs e) =
          (entryCheckTypes e).map (fun t => "bg_deployments_" ++ t) := by
        rw [entryCheckPairs, entryCheckTypes, keysOf]
        rw [List.map_flatten, List.map_flatten, List.map_map, List.map_map]
        congr 1
        apply List.map_congr_left
        intro s hs
        simp [servicePairs, Function.comp, List.map_map]
      have hlen := length_insertAll_nil (entryCheckPairs e)
      rw [hlen, hkeys, dedup_length_map_inj bgKey_inj]
    · intro k
      simp only [hempty]
      rw [assocGet_insertAll]
      cases hlast : ((entryCheckPairs e).filterMap
          (fun p => if p.1 == k then some p.2 else none)).getLast? with
      | none => rfl
      | some v => rfl
  · intro t₁ t₂
    exact ⟨bgKey_inj t₁ t₂, fun h => by rw [h]⟩

/-- C10 witness: two explicitly http-typed checks on one tcp service
collapse to a single top-level check holding the defaulted copy of the
second check. -/
theorem c10_witness :
    (∃ e2, attachChecksToEntry cexTwoHttpEntry = some e2
      ∧ e2.launchInput.config.checks.length = 1
      ∧ assocGet e2.launchInput.config.checks "bg_deployments_http" =
          some (defaultedCheck 80 "tcp" (mkCheck (some 2222) (some "http")))) := by
  obtain ⟨⟨e2, h1, h2, h3, h4⟩, -⟩ := c10_same_type_last_wins cexTwoHttpEntry rfl rfl
  refine ⟨e2, h1, ?_, ?_⟩
  · rw [h3]
    rfl
  · rw [h4 "bg_deployments_http"]
    rfl
